import Mathlib

/-!
Shallow embedding of the interest-accrual core of the RealToken-Community
gainorloss dashboard, together with proofs about it.

Embedded source files:
* src/lib/services/thegraph-interest-calculator.ts
  (calculateSupplyInterestFromBalances, calculateDebtInterestFromBalances,
  addTodayPoint, createEmptyResult, formatDateYYYYMMDD, the RAY constant);
* src/unnamed/part_004 (the V2 calculator, addTodayPointV2);
* src/unnamed/part_007 (the period-interpolation query layer:
  dateToTimestamp, timestampToDate, findSurroundingPoints, interpolatePoint,
  getPointAtDate, calculatePeriodInterest).

Modelling conventions:
* JavaScript BigInt values (decimal-string encoded in the JSON payloads) are
  modelled as Int; BigInt division truncates toward zero and is modelled by
  Int.tdiv.
* JavaScript number values fed through parseFloat in the query layer are
  modelled exactly as rationals (IEEE-754 rounding is not modelled).
* Date objects: the source derives calendar days with new Date(ts*1000) and
  getFullYear/getMonth/getDate, i.e. the proleptic Gregorian calendar in the
  server's local timezone; the timezone is modelled as UTC.  The 8-digit
  YYYYMMDD strings are modelled as the corresponding natural numbers.
* new Date() (the current wall-clock time in addTodayPoint) is modelled as an
  explicit now parameter.
* JavaScript Map objects are modelled as association lists: Map.set replaces
  the value of an existing key in place (keeping its insertion position) and
  appends unknown keys; Map.values() returns values in that key order.
* Array.prototype.sort with the comparator (a, b) => a.timestamp - b.timestamp
  is a stable sort (ECMAScript 2019), so its output is uniquely determined:
  elements ordered by timestamp, ties kept in input order.  It is modelled by
  List.insertionSort on the ascending-timestamp relation, which is also stable
  and therefore produces the same output.
-/

namespace GainOrLoss

/-- RAY as the source actually defines it: const RAY = BigInt(10 ** 27).
The expression 10 ** 27 is evaluated in IEEE-754 double precision before the
BigInt conversion.  10^27 = 7275957614183425.9033203125 * 2^37, so the nearest
double is 7275957614183426 * 2^37 = 10^27 + 13287555072, and that is the value
of the program's RAY constant.  We define it by rounding 10^27 to the nearest
multiple of 2^37 (the distance to the midpoint is not a tie). -/
def RAY : Int := ((10 ^ 27 + 2 ^ 36) / 2 ^ 37) * 2 ^ 37

theorem RAY_value : RAY = 10 ^ 27 + 13287555072 := by decide

theorem RAY_ne_pow : RAY ≠ 10 ^ 27 := by decide

/-- Gregorian calendar date (year, month, day) of a day number counted from
1970-01-01, by the standard civil-from-days algorithm; this is what
new Date(ts*1000).getFullYear()/getMonth()/getDate() compute for a UTC clock. -/
def civilFromDays (z : Nat) : Nat × Nat × Nat :=
  let z' := z + 719468
  let era := z' / 146097
  let doe := z' % 146097
  let yoe := (doe - doe / 1460 + doe / 36524 - doe / 146096) / 365
  let y := yoe + era * 400
  let doy := doe - (365 * yoe + yoe / 4 - yoe / 100)
  let mp := (5 * doy + 2) / 153
  let d := doy - (153 * mp + 2) / 5 + 1
  let m := if mp < 10 then mp + 3 else mp - 9
  (if m ≤ 2 then y + 1 else y, m, d)

/-- formatDateYYYYMMDD from thegraph-interest-calculator.ts: formats a Unix
timestamp (seconds) as the 8-digit YYYYMMDD day string, modelled as the
corresponding number year*10000 + month*100 + day. -/
def formatDateYYYYMMDD (ts : Nat) : Nat :=
  let c := civilFromDays (ts / 86400)
  c.1 * 10000 + c.2.1 * 100 + c.2.2

/-- One aToken balance row as consumed by calculateSupplyInterestFromBalances:
timestamp, userReserve.reserve.symbol, currentATokenBalance,
scaledATokenBalance and the liquidity index (all amounts BigInt-as-string in
the source, modelled as Int). -/
structure ATokenSnapshot where
  timestamp : Nat
  symbol : String
  currentATokenBalance : Int
  scaledATokenBalance : Int
  index : Int
deriving DecidableEq, Repr

/-- One vToken balance row as consumed by calculateDebtInterestFromBalances. -/
structure VTokenSnapshot where
  timestamp : Nat
  symbol : String
  currentVariableDebt : Int
  scaledVariableDebt : Int
  index : Int
deriving DecidableEq, Repr

/-- One entry of the dailyDetails array built by the calculators.  The supply
calculator fills the supply field and the debt calculator the debt field; in
the source these dynamic keys may be absent, hence Option.  transactionAmount
is the BigInt behind the emitted decimal string ("0" when no movement). -/
structure DailyDetail where
  date : Nat
  timestamp : Nat
  debt : Option Int := none
  supply : Option Int := none
  periodInterest : Int
  totalInterest : Int
  transactionAmount : Int
  transactionType : String
  source : String
deriving DecidableEq, Repr

/-- JavaScript Map.set on an association list: if the key is present its value
is replaced in place, otherwise the pair is appended at the end. -/
def mapSet {α : Type} (m : List (Nat × α)) (k : Nat) (v : α) : List (Nat × α) :=
  match m with
  | [] => [(k, v)]
  | (k', v') :: rest => if k' = k then (k, v) :: rest else (k', v') :: mapSet rest k v

/-- Ascending-timestamp ordering used to model
sort((a, b) => a.timestamp - b.timestamp) on aToken rows. -/
def aTs (a b : ATokenSnapshot) : Prop := a.timestamp ≤ b.timestamp

instance : DecidableRel aTs := fun a b => inferInstanceAs (Decidable (a.timestamp ≤ b.timestamp))

instance : IsTotal ATokenSnapshot aTs := ⟨fun a b => Nat.le_total a.timestamp b.timestamp⟩

instance : IsTrans ATokenSnapshot aTs := ⟨fun _ _ _ h h' => Nat.le_trans h h'⟩

/-- Ascending-timestamp ordering for vToken rows. -/
def vTs (a b : VTokenSnapshot) : Prop := a.timestamp ≤ b.timestamp

instance : DecidableRel vTs := fun a b => inferInstanceAs (Decidable (a.timestamp ≤ b.timestamp))

instance : IsTotal VTokenSnapshot vTs := ⟨fun a b => Nat.le_total a.timestamp b.timestamp⟩

instance : IsTrans VTokenSnapshot vTs := ⟨fun _ _ _ h h' => Nat.le_trans h h'⟩

/-- Day-deduplication map of calculateSupplyInterestFromBalances: walk the
(sorted) rows and set balancesByDay[formatDateYYYYMMDD(timestamp)] = row, the
later row overwriting the earlier. -/
def balancesByDayA (l : List ATokenSnapshot) : List (Nat × ATokenSnapshot) :=
  l.foldl (fun m b => mapSet m (formatDateYYYYMMDD b.timestamp) b) []

/-- Day-deduplication map of calculateDebtInterestFromBalances. -/
def balancesByDayV (l : List VTokenSnapshot) : List (Nat × VTokenSnapshot) :=
  l.foldl (fun m b => mapSet m (formatDateYYYYMMDD b.timestamp) b) []

/-- periodBalances of calculateSupplyInterestFromBalances: sort the filtered
rows by timestamp, deduplicate by calendar day (last one wins), then sort the
kept rows by timestamp again. -/
def periodBalancesA (tokenBalances : List ATokenSnapshot) : List ATokenSnapshot :=
  let sortedBalances := tokenBalances.insertionSort aTs
  ((balancesByDayA sortedBalances).map Prod.snd).insertionSort aTs

/-- periodBalances of calculateDebtInterestFromBalances. -/
def periodBalancesV (tokenBalances : List VTokenSnapshot) : List VTokenSnapshot :=
  let sortedBalances := tokenBalances.insertionSort vTs
  ((balancesByDayV sortedBalances).map Prod.snd).insertionSort vTs

/-- Running state of the daily loop of calculateSupplyInterestFromBalances:
the dailyDetails array and the totalInterest / currentSupply / totalSupplies /
totalWithdraws accumulators. -/
structure SupplyState where
  dailyDetails : List DailyDetail
  totalInterest : Int
  currentSupply : Int
  totalSupplies : Int
  totalWithdraws : Int
deriving DecidableEq, Repr

/-- daySupply of one iteration of the loop of
calculateSupplyInterestFromBalances: when the scaled balance increased from
the previous point, the deposit amount (deltaScaled * currentIndex) / RAY,
valued at the current index; BigInt division truncates toward zero
(Int.tdiv). -/
def daySupply : Option ATokenSnapshot → ATokenSnapshot → Int
  | none, _ => 0
  | some p, cur =>
    if cur.scaledATokenBalance > p.scaledATokenBalance then
      Int.tdiv ((cur.scaledATokenBalance - p.scaledATokenBalance) * cur.index) RAY
    else 0

/-- dayWithdraw of one iteration of the supply loop: when the scaled balance
decreased, the withdrawn amount (deltaScaled * currentIndex) / RAY. -/
def dayWithdraw : Option ATokenSnapshot → ATokenSnapshot → Int
  | none, _ => 0
  | some p, cur =>
    if cur.scaledATokenBalance < p.scaledATokenBalance then
      Int.tdiv ((p.scaledATokenBalance - cur.scaledATokenBalance) * cur.index) RAY
    else 0

/-- dayTotalInterest of one iteration of the supply loop: 0 at the first
point; otherwise (previousScaled * (currentIndex - previousIndex)) / RAY,
kept only when strictly positive (negative or zero values are dropped). -/
def supplyDayInterest : Option ATokenSnapshot → ATokenSnapshot → Int
  | none, _ => 0
  | some p, cur =>
    let periodInterest := Int.tdiv (p.scaledATokenBalance * (cur.index - p.index)) RAY
    if periodInterest > 0 then periodInterest else 0

/-- dailyDetail record pushed by one iteration of the supply loop, given the
totalInterest accumulated before this iteration. -/
def supplyDailyDetail (prev : Option ATokenSnapshot) (cur : ATokenSnapshot)
    (totalInterest : Int) : DailyDetail :=
  { date := formatDateYYYYMMDD cur.timestamp
    timestamp := cur.timestamp
    supply := some cur.currentATokenBalance
    periodInterest := supplyDayInterest prev cur
    totalInterest := totalInterest + supplyDayInterest prev cur
    transactionAmount :=
      if daySupply prev cur > 0 then daySupply prev cur
      else if dayWithdraw prev cur > 0 then dayWithdraw prev cur else 0
    transactionType :=
      if daySupply prev cur > 0 then "supply"
      else if dayWithdraw prev cur > 0 then "withdraw" else "none"
    source := "real" }

/-- Daily loop of calculateSupplyInterestFromBalances over periodBalances.
prev is periodBalances[i-1] (none at i = 0). -/
def supplyLoop : Option ATokenSnapshot → List ATokenSnapshot → SupplyState → SupplyState
  | _, [], st => st
  | prev, cur :: rest, st =>
    supplyLoop (some cur) rest
      { dailyDetails := st.dailyDetails ++ [supplyDailyDetail prev cur st.totalInterest]
        totalInterest := st.totalInterest + supplyDayInterest prev cur
        currentSupply := cur.currentATokenBalance
        totalSupplies := st.totalSupplies + daySupply prev cur
        totalWithdraws := st.totalWithdraws + dayWithdraw prev cur }

/-- Result record of calculateSupplyInterestFromBalances (totalInterest, the
dailyDetails array, and the summary fields, flattened). -/
structure SupplyResult where
  totalInterest : Int
  dailyDetails : List DailyDetail
  totalSupplies : Int
  totalWithdraws : Int
  currentSupply : Int
deriving DecidableEq, Repr

/-- createEmptyResult('supply'). -/
def createEmptyResultSupply : SupplyResult :=
  { totalInterest := 0, dailyDetails := [], totalSupplies := 0
    totalWithdraws := 0, currentSupply := 0 }

/-- calculateSupplyInterestFromBalances from thegraph-interest-calculator.ts:
filter the rows to the requested reserve symbol, sort and deduplicate by day,
then run the daily accrual loop. -/
def calculateSupplyInterestFromBalances (atokenBalances : List ATokenSnapshot) (token : String) : SupplyResult :=
  if atokenBalances = [] then createEmptyResultSupply
  else
    let tokenBalances := atokenBalances.filter (fun b => b.symbol = token)
    if tokenBalances = [] then createEmptyResultSupply
    else
      let st := supplyLoop none (periodBalancesA tokenBalances)
        { dailyDetails := [], totalInterest := 0, currentSupply := 0
          totalSupplies := 0, totalWithdraws := 0 }
      { totalInterest := st.totalInterest, dailyDetails := st.dailyDetails
        totalSupplies := st.totalSupplies, totalWithdraws := st.totalWithdraws
        currentSupply := st.currentSupply }

/-- Running state of the daily loop of calculateDebtInterestFromBalances. -/
structure DebtState where
  dailyDetails : List DailyDetail
  totalInterest : Int
  currentDebt : Int
  totalBorrows : Int
  totalRepays : Int
deriving DecidableEq, Repr

/-- dayBorrow of one iteration of the loop of
calculateDebtInterestFromBalances.  At i = 0 (prev = none) the current debt is
compared against the running currentDebt variable (still 0 there), a positive
first debt being recorded as a borrow of the raw difference; for i > 0 a
scaled-debt increase is a borrow of (deltaScaled * currentIndex) / RAY. -/
def dayBorrow (stCurrentDebt : Int) : Option VTokenSnapshot → VTokenSnapshot → Int
  | none, cur => if cur.currentVariableDebt > stCurrentDebt then cur.currentVariableDebt - stCurrentDebt else 0
  | some p, cur =>
    if cur.scaledVariableDebt > p.scaledVariableDebt then
      Int.tdiv ((cur.scaledVariableDebt - p.scaledVariableDebt) * cur.index) RAY
    else 0

/-- dayRepay of one iteration of the debt loop. -/
def dayRepay (stCurrentDebt : Int) : Option VTokenSnapshot → VTokenSnapshot → Int
  | none, cur => if cur.currentVariableDebt < stCurrentDebt then stCurrentDebt - cur.currentVariableDebt else 0
  | some p, cur =>
    if cur.scaledVariableDebt < p.scaledVariableDebt then
      Int.tdiv ((p.scaledVariableDebt - cur.scaledVariableDebt) * cur.index) RAY
    else 0

/-- dayTotalInterest of one iteration of the debt loop: 0 at the first point,
otherwise (previousScaled * (currentIndex - previousIndex)) / RAY kept only
when strictly positive. -/
def debtDayInterest : Option VTokenSnapshot → VTokenSnapshot → Int
  | none, _ => 0
  | some p, cur =>
    let periodInterest := Int.tdiv (p.scaledVariableDebt * (cur.index - p.index)) RAY
    if periodInterest > 0 then periodInterest else 0

/-- dailyDetail record pushed by one iteration of the debt loop. -/
def debtDailyDetail (stCurrentDebt : Int) (prev : Option VTokenSnapshot) (cur : VTokenSnapshot)
    (totalInterest : Int) : DailyDetail :=
  { date := formatDateYYYYMMDD cur.timestamp
    timestamp := cur.timestamp
    debt := some cur.currentVariableDebt
    periodInterest := debtDayInterest prev cur
    totalInterest := totalInterest + debtDayInterest prev cur
    transactionAmount :=
      if dayBorrow stCurrentDebt prev cur > 0 then dayBorrow stCurrentDebt prev cur
      else if dayRepay stCurrentDebt prev cur > 0 then dayRepay stCurrentDebt prev cur else 0
    transactionType :=
      if dayBorrow stCurrentDebt prev cur > 0 then "borrow"
      else if dayRepay stCurrentDebt prev cur > 0 then "repay" else "none"
    source := "real" }

/-- Daily loop of calculateDebtInterestFromBalances over periodBalances. -/
def debtLoop : Option VTokenSnapshot → List VTokenSnapshot → DebtState → DebtState
  | _, [], st => st
  | prev, cur :: rest, st =>
    debtLoop (some cur) rest
      { dailyDetails := st.dailyDetails ++ [debtDailyDetail st.currentDebt prev cur st.totalInterest]
        totalInterest := st.totalInterest + debtDayInterest prev cur
        currentDebt := cur.currentVariableDebt
        totalBorrows := st.totalBorrows + dayBorrow st.currentDebt prev cur
        totalRepays := st.totalRepays + dayRepay st.currentDebt prev cur }

/-- Result record of calculateDebtInterestFromBalances. -/
structure DebtResult where
  totalInterest : Int
  dailyDetails : List DailyDetail
  totalBorrows : Int
  totalRepays : Int
  currentDebt : Int
deriving DecidableEq, Repr

/-- createEmptyResult('debt'). -/
def createEmptyResultDebt : DebtResult :=
  { totalInterest := 0, dailyDetails := [], totalBorrows := 0
    totalRepays := 0, currentDebt := 0 }

/-- calculateDebtInterestFromBalances from thegraph-interest-calculator.ts. -/
def calculateDebtInterestFromBalances (vtokenBalances : List VTokenSnapshot) (token : String) : DebtResult :=
  if vtokenBalances = [] then createEmptyResultDebt
  else
    let tokenBalances := vtokenBalances.filter (fun b => b.symbol = token)
    if tokenBalances = [] then createEmptyResultDebt
    else
      let st := debtLoop none (periodBalancesV tokenBalances)
        { dailyDetails := [], totalInterest := 0, currentDebt := 0
          totalBorrows := 0, totalRepays := 0 }
      { totalInterest := st.totalInterest, dailyDetails := st.dailyDetails
        totalBorrows := st.totalBorrows, totalRepays := st.totalRepays
        currentDebt := st.currentDebt }

/-- Balance field selected by a balanceType / balanceKey string: the source
reads lastPoint.debt || 0 when the string is 'debt' and lastPoint.supply || 0
otherwise. -/
def selectedBalance (p : DailyDetail) (balanceType : String) : Int :=
  if balanceType = "debt" then p.debt.getD 0 else p.supply.getD 0

/-- addTodayPoint from thegraph-interest-calculator.ts (the V3 path): append a
point at the current time carrying the freshly read on-chain balance, with
periodInterest = currentBalance - lastPoint balance (no clamp) and
totalInterest = lastPoint.totalInterest + periodInterest.  new Date() is the
explicit now parameter; the token parameter is unused, as in the source. -/
def addTodayPoint (dailyDetails : List DailyDetail) (currentBalance : Int)
    (balanceType : String) (_token : String) (now : Nat) : List DailyDetail :=
  match dailyDetails.getLast? with
  | none => dailyDetails
  | some lastPoint =>
    let periodInterest : Int :=
      if balanceType = "debt" then currentBalance - lastPoint.debt.getD 0
      else currentBalance - lastPoint.supply.getD 0
    let newtotalInterest := lastPoint.totalInterest + periodInterest
    let todayPoint : DailyDetail :=
      { date := formatDateYYYYMMDD now
        timestamp := now
        debt := if balanceType = "debt" then some currentBalance else none
        supply := if balanceType = "debt" then none else some currentBalance
        periodInterest := periodInterest
        totalInterest := newtotalInterest
        transactionAmount := 0
        transactionType := "BalanceOf"
        source := "real" }
    dailyDetails ++ [todayPoint]

/-- addTodayPointV2 from src/unnamed/part_004 (the V2 calculator): append a
point at the current time carrying the fresh balance, with periodInterest "0"
and totalInterest carried over unchanged from the last point. -/
def addTodayPointV2 (dailyDetails : List DailyDetail) (currentBalance : Int)
    (balanceType : String) (now : Nat) : List DailyDetail :=
  match dailyDetails.getLast? with
  | none => dailyDetails
  | some lastPoint =>
    let todayPoint : DailyDetail :=
      { date := formatDateYYYYMMDD now
        timestamp := now
        debt := if balanceType = "debt" then some currentBalance else none
        supply := if balanceType = "debt" then none else some currentBalance
        periodInterest := 0
        totalInterest := lastPoint.totalInterest
        transactionAmount := 0
        transactionType := "BalanceOf"
        source := "real" }
    dailyDetails ++ [todayPoint]

/-- dateToTimestamp from src/unnamed/part_007: convert a YYYYMMDD day (the
source also strips dashes from YYYY-MM-DD strings; dates are modelled as the
8-digit numbers directly) to the Unix timestamp of local midnight, local time
modelled as UTC.  The day count uses the standard days-from-civil algorithm,
which is what new Date(year, month-1, day) computes; it is used for dates from
1970 on (Nat subtraction would truncate before 1969). -/
def dateToTimestamp (date : Nat) : Nat :=
  let year := date / 10000
  let month := date % 10000 / 100
  let day := date % 100
  let y' := year - (if month ≤ 2 then 1 else 0)
  let era := y' / 400
  let yoe := y' % 400
  let mp := if month > 2 then month - 3 else month + 9
  let doy := (153 * mp + 2) / 5 + day - 1
  let doe := yoe * 365 + yoe / 4 - yoe / 100 + doy
  (era * 146097 + doe - 719468) * 86400

/-- timestampToDate from src/unnamed/part_007: the same YYYYMMDD computation
as formatDateYYYYMMDD in the calculator module. -/
def timestampToDate (ts : Nat) : Nat := formatDateYYYYMMDD ts

/-- Result triple of findSurroundingPoints. -/
structure Surrounding where
  before : Option DailyDetail
  after : Option DailyDetail
  exact : Option DailyDetail
deriving DecidableEq, Repr

/-- Comparator of the sort in findSurroundingPoints (ascending timestamps on
DailyDetail values). -/
def dTs (a b : DailyDetail) : Prop := a.timestamp ≤ b.timestamp

instance : DecidableRel dTs := fun a b => inferInstanceAs (Decidable (a.timestamp ≤ b.timestamp))

instance : IsTotal DailyDetail dTs := ⟨fun a b => Nat.le_total a.timestamp b.timestamp⟩

instance : IsTrans DailyDetail dTs := ⟨fun _ _ _ h h' => Nat.le_trans h h'⟩

/-- Scan loop of findSurroundingPoints over the sorted points, carrying the
before accumulator: an equal calendar day stops the scan with an exact match;
a point before the target becomes the new before; the first point after the
target stops the scan as after.  A point whose timestamp equals the target but
whose day differs would fall through every branch and the scan continues. -/
def findLoop (targetTimestamp : Nat) : List DailyDetail → Option DailyDetail → Surrounding
  | [], before => { before := before, after := none, exact := none }
  | point :: rest, before =>
    if timestampToDate point.timestamp = timestampToDate targetTimestamp then
      { before := before, after := none, exact := some point }
    else if point.timestamp < targetTimestamp then
      findLoop targetTimestamp rest (some point)
    else if point.timestamp > targetTimestamp then
      { before := before, after := some point, exact := none }
    else
      findLoop targetTimestamp rest before

/-- findSurroundingPoints from src/unnamed/part_007: sort a copy of the series
by timestamp and scan it for the exact / before / after points of the target
timestamp.  The balanceKey parameter is unused, as in the source. -/
def findSurroundingPoints (dailyDetails : List DailyDetail) (targetTimestamp : Nat)
    (_balanceKey : String) : Surrounding :=
  if dailyDetails = [] then { before := none, after := none, exact := none }
  else
    let sorted := dailyDetails.insertionSort dTs
    findLoop targetTimestamp sorted none

/-- Point returned by the query layer: a real or interpolated (timestamp,
balance, totalInterest) sample.  The numeric fields go through parseFloat in
the source and are modelled as exact rationals. -/
structure InterpolatedPoint where
  timestamp : Nat
  balance : ℚ
  totalInterest : ℚ
  isInterpolated : Bool
deriving DecidableEq, Repr

/-- parseFloat(point[balanceKey] || '0') of the query layer, exactly. -/
def keyedBalance (p : DailyDetail) (balanceKey : String) : ℚ :=
  if balanceKey = "debt" then ((p.debt.getD 0 : Int) : ℚ) else ((p.supply.getD 0 : Int) : ℚ)

/-- interpolatePoint from src/unnamed/part_007: linear interpolation of
balance and totalInterest between two points, weighted by the elapsed-time
ratio (0 when the two timestamps coincide). -/
def interpolatePoint (bef aft : DailyDetail) (targetTimestamp : Nat)
    (balanceKey : String) : InterpolatedPoint :=
  let timeDiff : ℚ := (aft.timestamp : ℚ) - (bef.timestamp : ℚ)
  let targetDiff : ℚ := (targetTimestamp : ℚ) - (bef.timestamp : ℚ)
  let ratio : ℚ := if timeDiff > 0 then targetDiff / timeDiff else 0
  { timestamp := targetTimestamp
    balance := keyedBalance bef balanceKey + (keyedBalance aft balanceKey - keyedBalance bef balanceKey) * ratio
    totalInterest := (bef.totalInterest : ℚ) + ((aft.totalInterest : ℚ) - (bef.totalInterest : ℚ)) * ratio
    isInterpolated := true }

/-- getPointAtDate from src/unnamed/part_007: the real or interpolated sample
of the series at a target date; exact day match first, then the
before-first / after-last / in-between cases. -/
def getPointAtDate (dailyDetails : List DailyDetail) (targetDate : Nat)
    (balanceKey : String) : Option InterpolatedPoint :=
  if dailyDetails = [] then none
  else
    let targetTimestamp := dateToTimestamp targetDate
    let s := findSurroundingPoints dailyDetails targetTimestamp balanceKey
    match s.exact with
    | some e =>
      some { timestamp := e.timestamp, balance := keyedBalance e balanceKey
             totalInterest := (e.totalInterest : ℚ), isInterpolated := false }
    | none =>
      match s.before, s.after with
      | none, some _ =>
        some { timestamp := targetTimestamp, balance := 0, totalInterest := 0, isInterpolated := true }
      | some b, none =>
        some { timestamp := targetTimestamp, balance := keyedBalance b balanceKey
               totalInterest := (b.totalInterest : ℚ), isInterpolated := true }
      | some b, some a => some (interpolatePoint b a targetTimestamp balanceKey)
      | none, none => none

/-- Result record of calculatePeriodInterest. -/
structure PeriodInterestResult where
  interest : ℚ
  startPoint : Option InterpolatedPoint
  endPoint : Option InterpolatedPoint
deriving DecidableEq, Repr

/-- calculatePeriodInterest from src/unnamed/part_007: interest of the
[startDate, endDate] window as totalInterest(end) - totalInterest(start),
floored at 0, together with the two boundary points. -/
def calculatePeriodInterest (dailyDetails : List DailyDetail) (startDate endDate : Nat)
    (balanceKey : String) : PeriodInterestResult :=
  if dailyDetails = [] then { interest := 0, startPoint := none, endPoint := none }
  else
    let startPoint := getPointAtDate dailyDetails startDate balanceKey
    let endPoint := getPointAtDate dailyDetails endDate balanceKey
    match startPoint, endPoint with
    | some sp, some ep =>
      { interest := max 0 (ep.totalInterest - sp.totalInterest)
        startPoint := some sp, endPoint := some ep }
    | _, _ => { interest := 0, startPoint := startPoint, endPoint := endPoint }

/-- Shared result construction of getPointAtDate from the surrounding-points
triple: exact day match first, then the before-first / after-last / in-between
cases. -/
def pointFromSurrounding (s : Surrounding) (targetTimestamp : Nat)
    (balanceKey : String) : Option InterpolatedPoint :=
  match s.exact with
  | some e =>
    some { timestamp := e.timestamp, balance := keyedBalance e balanceKey
           totalInterest := (e.totalInterest : ℚ), isInterpolated := false }
  | none =>
    match s.before, s.after with
    | none, some _ =>
      some { timestamp := targetTimestamp, balance := 0, totalInterest := 0, isInterpolated := true }
    | some b, none =>
      some { timestamp := targetTimestamp, balance := keyedBalance b balanceKey
             totalInterest := (b.totalInterest : ℚ), isInterpolated := true }
    | some b, some a => some (interpolatePoint b a targetTimestamp balanceKey)
    | none, none => none

/-- State-passing embedding of findSurroundingPoints, for the frame property:
alongside the result it returns the observable content of the caller's
dailyDetails array after the call.  The only in-place array operation of the
source function is the sort, and the source applies it to the fresh spread
copy [...dailyDetails], never to the caller's array, so the state returned is
the received list itself. -/
def findSurroundingPointsSt (dailyDetails : List DailyDetail) (targetTimestamp : Nat)
    (_balanceKey : String) : Surrounding × List DailyDetail :=
  if dailyDetails = [] then ({ before := none, after := none, exact := none }, dailyDetails)
  else
    let copy := dailyDetails
    let sorted := copy.insertionSort dTs
    (findLoop targetTimestamp sorted none, dailyDetails)

/-- State-passing embedding of getPointAtDate: it performs no array mutation
of its own and threads the series state through findSurroundingPointsSt. -/
def getPointAtDateSt (dailyDetails : List DailyDetail) (targetDate : Nat)
    (balanceKey : String) : Option InterpolatedPoint × List DailyDetail :=
  if dailyDetails = [] then (none, dailyDetails)
  else
    let targetTimestamp := dateToTimestamp targetDate
    let sres := findSurroundingPointsSt dailyDetails targetTimestamp balanceKey
    (pointFromSurrounding sres.1 targetTimestamp balanceKey, sres.2)

/-- State-passing embedding of calculatePeriodInterest: the two boundary
lookups are threaded through the series state. -/
def calculatePeriodInterestSt (dailyDetails : List DailyDetail) (startDate endDate : Nat)
    (balanceKey : String) : PeriodInterestResult × List DailyDetail :=
  if dailyDetails = [] then ({ interest := 0, startPoint := none, endPoint := none }, dailyDetails)
  else
    let sres := getPointAtDateSt dailyDetails startDate balanceKey
    let eres := getPointAtDateSt sres.2 endDate balanceKey
    match sres.1, eres.1 with
    | some sp, some ep =>
      ({ interest := max 0 (ep.totalInterest - sp.totalInterest)
         startPoint := some sp, endPoint := some ep }, eres.2)
    | _, _ => ({ interest := 0, startPoint := sres.1, endPoint := eres.1 }, eres.2)

/-- Specification-side boundary sample of a series at a target date, stated
from the words of the spec rather than from the code: use the first sorted
point on the same calendar day if one exists; report zero balance and zero
cumulative interest before the first point; clamp to the last point's values
after the last point; otherwise interpolate linearly between the immediately
preceding and following points. -/
def getPointAtDateSpec (dailyDetails : List DailyDetail) (targetDate : Nat)
    (balanceKey : String) : Option InterpolatedPoint :=
  if dailyDetails = [] then none
  else
    let t := dateToTimestamp targetDate
    let sorted := dailyDetails.insertionSort dTs
    match sorted.find? (fun p => timestampToDate p.timestamp = timestampToDate t) with
    | some p =>
      some { timestamp := p.timestamp, balance := keyedBalance p balanceKey
             totalInterest := (p.totalInterest : ℚ), isInterpolated := false }
    | none =>
      match (sorted.filter (fun p => p.timestamp < t)).getLast?,
            (sorted.filter (fun p => t < p.timestamp)).head? with
      | none, some _ =>
        some { timestamp := t, balance := 0, totalInterest := 0, isInterpolated := true }
      | some b, none =>
        some { timestamp := t, balance := keyedBalance b balanceKey
               totalInterest := (b.totalInterest : ℚ), isInterpolated := true }
      | some b, some a => some (interpolatePoint b a t balanceKey)
      | none, none => none

/-- Day coherence of a series with respect to a target timestamp: calendar
days, as computed by timestampToDate, are ordered like timestamps, both
between two series points and between a series point and the target.  Every
actual series satisfies this because the calendar conversion is a monotone
function of the timestamp; it is kept as an explicit, decidable hypothesis
on the series instead of a global monotonicity theorem about the Gregorian
conversion. -/
def DayCoherent (l : List DailyDetail) (t : Nat) : Prop :=
  (∀ p ∈ l, ∀ q ∈ l, p.timestamp ≤ q.timestamp →
    timestampToDate p.timestamp ≤ timestampToDate q.timestamp)
  ∧ ∀ p ∈ l, (p.timestamp ≤ t → timestampToDate p.timestamp ≤ timestampToDate t)
      ∧ (t ≤ p.timestamp → timestampToDate t ≤ timestampToDate p.timestamp)

instance (l : List DailyDetail) (t : Nat) : Decidable (DayCoherent l t) := by
  unfold DayCoherent
  infer_instance

/-! Helper lemmas. -/

theorem tdiv_nonpos_of_nonpos_of_nonneg {a b : Int} (ha : a ≤ 0) (hb : 0 ≤ b) :
    a.tdiv b ≤ 0 := by
  have h : (0 : Int) ≤ (-a).tdiv b := Int.tdiv_nonneg (by omega) hb
  rw [Int.neg_tdiv] at h
  omega

theorem supplyDayInterest_nonneg (prev : Option ATokenSnapshot) (cur : ATokenSnapshot) :
    0 ≤ supplyDayInterest prev cur := by
  cases prev with
  | none => simp [supplyDayInterest]
  | some p =>
    simp only [supplyDayInterest]
    split <;> omega

theorem debtDayInterest_nonneg (prev : Option VTokenSnapshot) (cur : VTokenSnapshot) :
    0 ≤ debtDayInterest prev cur := by
  cases prev with
  | none => simp [debtDayInterest]
  | some p =>
    simp only [debtDayInterest]
    split <;> omega

theorem supplyLoop_dailyDetails_prefix (l : List ATokenSnapshot) :
    ∀ (prev : Option ATokenSnapshot) (st : SupplyState),
      ∃ t, (supplyLoop prev l st).dailyDetails = st.dailyDetails ++ t := by
  induction l with
  | nil => exact fun prev st => ⟨[], by simp [supplyLoop]⟩
  | cons cur rest ih =>
    intro prev st
    obtain ⟨t, ht⟩ := ih (some cur)
      { dailyDetails := st.dailyDetails ++ [supplyDailyDetail prev cur st.totalInterest]
        totalInterest := st.totalInterest + supplyDayInterest prev cur
        currentSupply := cur.currentATokenBalance
        totalSupplies := st.totalSupplies + daySupply prev cur
        totalWithdraws := st.totalWithdraws + dayWithdraw prev cur }
    exact ⟨supplyDailyDetail prev cur st.totalInterest :: t, by
      simpa [supplyLoop] using ht⟩

theorem debtLoop_dailyDetails_prefix (l : List VTokenSnapshot) :
    ∀ (prev : Option VTokenSnapshot) (st : DebtState),
      ∃ t, (debtLoop prev l st).dailyDetails = st.dailyDetails ++ t := by
  induction l with
  | nil => exact fun prev st => ⟨[], by simp [debtLoop]⟩
  | cons cur rest ih =>
    intro prev st
    obtain ⟨t, ht⟩ := ih (some cur)
      { dailyDetails := st.dailyDetails ++ [debtDailyDetail st.currentDebt prev cur st.totalInterest]
        totalInterest := st.totalInterest + debtDayInterest prev cur
        currentDebt := cur.currentVariableDebt
        totalBorrows := st.totalBorrows + dayBorrow st.currentDebt prev cur
        totalRepays := st.totalRepays + dayRepay st.currentDebt prev cur }
    exact ⟨debtDailyDetail st.currentDebt prev cur st.totalInterest :: t, by
      simpa [debtLoop] using ht⟩

/-! Claims. -/

/-- C1: the spec and claim state that period interest is
(scaledBalance[i-1] * (index[i] - index[i-1])) / RAY with RAY = 10^27, and
that scenario A (scaled 1000, index 1.0e27 then 1.05e27) yields 50.  The
program's RAY constant is BigInt(10 ** 27), where 10 ** 27 is evaluated in
double precision, giving 10^27 + 13287555072; dividing by it, the engine
emits 49 on scenario A, while the claimed formula with RAY = 10^27 gives 50. -/
theorem claim_C1_code_eval :
    ((calculateSupplyInterestFromBalances
        [⟨1704067200, "USDC", 1000, 1000, 10 ^ 27⟩,
         ⟨1704153600, "USDC", 1050, 1000, 1050 * 10 ^ 24⟩] "USDC").dailyDetails.map
        (fun d => d.periodInterest)) = [0, 49]
    ∧ RAY = 10 ^ 27 + 13287555072
    ∧ Int.tdiv (1000 * (1050 * 10 ^ 24 - 10 ^ 27)) (10 ^ 27) = 50 := by decide

/-- C2: scenario B (same index 1.0e27, scaled 1000 to 1500) is classified as
a supply with zero period interest, as claimed, but the movement amount is
(deltaScaled * index) / RAY with the program's RAY = 10^27 + 13287555072, so
the engine emits 499 where the claim (valuing with RAY = 10^27) states 500. -/
theorem claim_C2_code_eval :
    ((calculateSupplyInterestFromBalances
        [⟨1704067200, "USDC", 1000, 1000, 10 ^ 27⟩,
         ⟨1704153600, "USDC", 1500, 1500, 10 ^ 27⟩] "USDC").dailyDetails.map
        (fun d => (d.periodInterest, d.transactionAmount, d.transactionType)))
      = [(0, 0, "none"), (0, 499, "supply")]
    ∧ Int.tdiv (500 * 10 ^ 27) (10 ^ 27) = 500
    ∧ Int.tdiv (500 * 10 ^ 27) RAY = 499 := by decide

/-- C3 counterexample: a single supply snapshot with positive raw balance
1000 produces a first DailyPoint with no movement (type none, amount 0),
not the claimed initial increase movement of amount 1000. -/
theorem claim_C3_counterexample :
    ((calculateSupplyInterestFromBalances
        [⟨1704067200, "USDC", 1000, 1000, 10 ^ 27⟩] "USDC").dailyDetails.map
        (fun d => (d.transactionAmount, d.transactionType))) = [(0, "none")]
    ∧ [((0 : Int), "none")] ≠ [((1000 : Int), "supply")] := by decide

/-- C3 (amended): for every non-empty deduplicated per-day snapshot list the
first emitted DailyPoint has periodInterest = 0 in both engines; the debt
engine records a positive first raw debt as an initial borrow movement of
exactly that amount, while the supply engine records no initial movement at
all (type none, amount 0). -/
theorem claim_C3_amended (a : ATokenSnapshot) (arest : List ATokenSnapshot)
    (v : VTokenSnapshot) (vrest : List VTokenSnapshot)
    (hv : 0 < v.currentVariableDebt) :
    (supplyLoop none (a :: arest)
        { dailyDetails := [], totalInterest := 0, currentSupply := 0
          totalSupplies := 0, totalWithdraws := 0 }).dailyDetails.head?
      = some (supplyDailyDetail none a 0)
    ∧ (supplyDailyDetail none a 0).periodInterest = 0
    ∧ (supplyDailyDetail none a 0).transactionType = "none"
    ∧ (supplyDailyDetail none a 0).transactionAmount = 0
    ∧ (debtLoop none (v :: vrest)
        { dailyDetails := [], totalInterest := 0, currentDebt := 0
          totalBorrows := 0, totalRepays := 0 }).dailyDetails.head?
      = some (debtDailyDetail 0 none v 0)
    ∧ (debtDailyDetail 0 none v 0).periodInterest = 0
    ∧ (debtDailyDetail 0 none v 0).transactionType = "borrow"
    ∧ (debtDailyDetail 0 none v 0).transactionAmount = v.currentVariableDebt := by
  refine ⟨?_, rfl, rfl, rfl, ?_, rfl, ?_, ?_⟩
  · obtain ⟨t, ht⟩ := supplyLoop_dailyDetails_prefix arest (some a)
      { dailyDetails := [supplyDailyDetail none a 0], totalInterest := 0 + supplyDayInterest none a
        currentSupply := a.currentATokenBalance, totalSupplies := 0 + daySupply none a
        totalWithdraws := 0 + dayWithdraw none a }
    simp only [supplyLoop, List.nil_append]
    rw [ht]
    simp
  · obtain ⟨t, ht⟩ := debtLoop_dailyDetails_prefix vrest (some v)
      { dailyDetails := [debtDailyDetail 0 none v 0], totalInterest := 0 + debtDayInterest none v
        currentDebt := v.currentVariableDebt, totalBorrows := 0 + dayBorrow 0 none v
        totalRepays := 0 + dayRepay 0 none v }
    simp only [debtLoop, List.nil_append]
    rw [ht]
    simp
  · simp only [debtDailyDetail, dayBorrow, dayRepay]
    rw [if_pos hv, if_pos (by omega)]
  · simp only [debtDailyDetail, dayBorrow]
    rw [if_pos hv, if_pos (by omega)]
    omega

theorem claim_C3_witness :
    (debtDailyDetail 0 none ⟨1704067200, "USDC", 1000, 990, 10 ^ 27⟩ 0).transactionAmount
      = (⟨1704067200, "USDC", 1000, 990, 10 ^ 27⟩ : VTokenSnapshot).currentVariableDebt :=
  (claim_C3_amended ⟨1704067200, "USDC", 1000, 1000, 10 ^ 27⟩ []
    ⟨1704067200, "USDC", 1000, 990, 10 ^ 27⟩ [] (by decide)).2.2.2.2.2.2.2

/-- C4 counterexample: with the last point dated exactly on the current day,
addTodayPoint still appends (the output has one point more, carrying the same
date as the former last point), instead of replacing the last point as the
claim states. -/
theorem claim_C4_counterexample :
    (addTodayPoint [⟨20240101, 1704067200, none, some 1000, 0, 0, 0, "none", "real"⟩]
        1500 "supply" "USDC" 1704100000).length = 2
    ∧ ((addTodayPoint [⟨20240101, 1704067200, none, some 1000, 0, 0, 0, "none", "real"⟩]
        1500 "supply" "USDC" 1704100000).map (fun d => d.date)) = [20240101, 20240101]
    ∧ formatDateYYYYMMDD 1704100000 = 20240101 := by decide

/-- C4 (amended): for every non-empty series, addTodayPoint unconditionally
appends one final point at the current time with balance B_now,
periodInterest = B_now - last balance (of the selected field) and
totalInterest = last totalInterest + periodInterest; it never replaces the
last point, even when that point's date equals the current day, so two
same-date points result.  addTodayPointV2 also always appends, but its today
point carries periodInterest 0 and the last totalInterest unchanged. -/
theorem claim_C4_amended (l : List DailyDetail) (lastPoint : DailyDetail)
    (h : l.getLast? = some lastPoint) (B : Int) (bt tok : String) (now : Nat) :
    addTodayPoint l B bt tok now = l ++
      [{ date := formatDateYYYYMMDD now, timestamp := now
         debt := if bt = "debt" then some B else none
         supply := if bt = "debt" then none else some B
         periodInterest := B - selectedBalance lastPoint bt
         totalInterest := lastPoint.totalInterest + (B - selectedBalance lastPoint bt)
         transactionAmount := 0, transactionType := "BalanceOf", source := "real" }]
    ∧ addTodayPointV2 l B bt now = l ++
      [{ date := formatDateYYYYMMDD now, timestamp := now
         debt := if bt = "debt" then some B else none
         supply := if bt = "debt" then none else some B
         periodInterest := 0
         totalInterest := lastPoint.totalInterest
         transactionAmount := 0, transactionType := "BalanceOf", source := "real" }] := by
  constructor
  · simp only [addTodayPoint, h, selectedBalance]
    split <;> simp
  · simp only [addTodayPointV2, h]

theorem claim_C4_witness :
    addTodayPoint [⟨20240101, 1704067200, none, some 1000, 0, 0, 0, "none", "real"⟩]
        1500 "supply" "USDC" 1704100000
      = [⟨20240101, 1704067200, none, some 1000, 0, 0, 0, "none", "real"⟩] ++
        [{ date := formatDateYYYYMMDD 1704100000, timestamp := 1704100000
           debt := if "supply" = "debt" then some 1500 else none
           supply := if "supply" = "debt" then none else some 1500
           periodInterest := 1500 - selectedBalance ⟨20240101, 1704067200, none, some 1000, 0, 0, 0, "none", "real"⟩ "supply"
           totalInterest := (⟨20240101, 1704067200, none, some 1000, 0, 0, 0, "none", "real"⟩ : DailyDetail).totalInterest +
             (1500 - selectedBalance ⟨20240101, 1704067200, none, some 1000, 0, 0, 0, "none", "real"⟩ "supply")
           transactionAmount := 0, transactionType := "BalanceOf", source := "real" }] :=
  (claim_C4_amended [⟨20240101, 1704067200, none, some 1000, 0, 0, 0, "none", "real"⟩]
    ⟨20240101, 1704067200, none, some 1000, 0, 0, 0, "none", "real"⟩ (by decide)
    1500 "supply" "USDC" 1704100000).1

/-- C10: for every non-empty series whose last recorded balance (in the field
selected by balanceType) exceeds the freshly read current balance,
addTodayPoint appends a point whose periodInterest is the negative raw
difference current balance minus last balance, with no clamp, and whose
totalInterest is strictly smaller than the last point's. -/
theorem claim_C10 (l : List DailyDetail) (lastPoint : DailyDetail)
    (h : l.getLast? = some lastPoint) (B : Int) (bt tok : String) (now : Nat)
    (hlt : B < selectedBalance lastPoint bt) :
    ∃ p, addTodayPoint l B bt tok now = l ++ [p]
      ∧ p.periodInterest = B - selectedBalance lastPoint bt
      ∧ p.periodInterest < 0
      ∧ p.totalInterest = lastPoint.totalInterest + p.periodInterest
      ∧ p.totalInterest < lastPoint.totalInterest := by
  refine ⟨_, (claim_C4_amended l lastPoint h B bt tok now).1, rfl, ?_, rfl, ?_⟩
  · show B - selectedBalance lastPoint bt < 0
    omega
  · show lastPoint.totalInterest + (B - selectedBalance lastPoint bt) < lastPoint.totalInterest
    omega

theorem claim_C10_witness :
    ∃ p, addTodayPoint [⟨20240101, 1704067200, none, some 1000, 0, 0, 0, "none", "real"⟩]
        400 "supply" "USDC" 1704100000
      = [⟨20240101, 1704067200, none, some 1000, 0, 0, 0, "none", "real"⟩] ++ [p]
      ∧ p.periodInterest = 400 - selectedBalance ⟨20240101, 1704067200, none, some 1000, 0, 0, 0, "none", "real"⟩ "supply"
      ∧ p.periodInterest < 0
      ∧ p.totalInterest = (⟨20240101, 1704067200, none, some 1000, 0, 0, 0, "none", "real"⟩ : DailyDetail).totalInterest + p.periodInterest
      ∧ p.totalInterest < (⟨20240101, 1704067200, none, some 1000, 0, 0, 0, "none", "real"⟩ : DailyDetail).totalInterest :=
  claim_C10 [⟨20240101, 1704067200, none, some 1000, 0, 0, 0, "none", "real"⟩]
    ⟨20240101, 1704067200, none, some 1000, 0, 0, 0, "none", "real"⟩ (by decide)
    400 "supply" "USDC" 1704100000 (by decide)

theorem getPointAtDate_eq_pointFromSurrounding (l : List DailyDetail) (d : Nat) (k : String) :
    getPointAtDate l d k =
      if l = [] then none
      else pointFromSurrounding (findSurroundingPoints l (dateToTimestamp d) k) (dateToTimestamp d) k := by
  unfold getPointAtDate pointFromSurrounding
  rfl

/-- C9: the period-interest query is pure.  In the state-passing embedding,
which returns the observable contents of the caller's series array after each
call, findSurroundingPoints, getPointAtDate and calculatePeriodInterest all
return the series exactly as received (the sort acts on a fresh copy), their
results agree with the pure functions, and a repeated call with a different
range against the cached series returned by an earlier call computes the same
answer as a call on the original series. -/
theorem claim_C9 (l : List DailyDetail) (s e s' e' d : Nat) (k k' : String) :
    (findSurroundingPointsSt l (dateToTimestamp d) k).2 = l
    ∧ (getPointAtDateSt l d k).2 = l
    ∧ (calculatePeriodInterestSt l s e k).2 = l
    ∧ (findSurroundingPointsSt l (dateToTimestamp d) k).1 = findSurroundingPoints l (dateToTimestamp d) k
    ∧ (getPointAtDateSt l d k).1 = getPointAtDate l d k
    ∧ (calculatePeriodInterestSt l s e k).1 = calculatePeriodInterest l s e k
    ∧ (calculatePeriodInterestSt (calculatePeriodInterestSt l s e k).2 s' e' k').1
        = calculatePeriodInterest l s' e' k' := by
  have hf2 : ∀ (t : Nat) (kk : String), (findSurroundingPointsSt l t kk).2 = l := by
    intro t kk
    unfold findSurroundingPointsSt
    split <;> rfl
  have hf1 : ∀ (t : Nat) (kk : String),
      (findSurroundingPointsSt l t kk).1 = findSurroundingPoints l t kk := by
    intro t kk
    unfold findSurroundingPointsSt findSurroundingPoints
    split <;> rfl
  have hg2 : ∀ (dd : Nat) (kk : String), (getPointAtDateSt l dd kk).2 = l := by
    intro dd kk
    unfold getPointAtDateSt
    split
    · rfl
    · exact hf2 _ _
  have hg1 : ∀ (dd : Nat) (kk : String), (getPointAtDateSt l dd kk).1 = getPointAtDate l dd kk := by
    intro dd kk
    rw [getPointAtDate_eq_pointFromSurrounding]
    unfold getPointAtDateSt
    split
    · rfl
    · simp only [hf1]
  have hc2 : ∀ (a b : Nat) (kk : String), (calculatePeriodInterestSt l a b kk).2 = l := by
    intro a b kk
    unfold calculatePeriodInterestSt
    split
    · rfl
    · simp only [hg2]
      split <;> rfl
  have hc1 : ∀ (a b : Nat) (kk : String),
      (calculatePeriodInterestSt l a b kk).1 = calculatePeriodInterest l a b kk := by
    intro a b kk
    unfold calculatePeriodInterestSt calculatePeriodInterest
    split
    · rfl
    · simp only [hg2, hg1]
      rcases getPointAtDate l a kk with _ | sp <;> rcases getPointAtDate l b kk with _ | ep <;> rfl
  refine ⟨hf2 _ _, hg2 _ _, hc2 _ _ _, hf1 _ _, hg1 _ _, hc1 _ _ _, ?_⟩
  rw [hc2]
  exact hc1 s' e' k'

theorem calcSupply_dailyDetails (bal : List ATokenSnapshot) (token : String) :
    (calculateSupplyInterestFromBalances bal token).dailyDetails =
      if bal = [] ∨ bal.filter (fun b => b.symbol = token) = [] then []
      else (supplyLoop none (periodBalancesA (bal.filter (fun b => b.symbol = token)))
        { dailyDetails := [], totalInterest := 0, currentSupply := 0
          totalSupplies := 0, totalWithdraws := 0 }).dailyDetails := by
  by_cases h1 : bal = []
  · simp [calculateSupplyInterestFromBalances, h1, createEmptyResultSupply]
  · by_cases h2 : bal.filter (fun b => b.symbol = token) = []
    · simp [calculateSupplyInterestFromBalances, h1, h2, createEmptyResultSupply]
    · simp [calculateSupplyInterestFromBalances, h1, h2]

theorem calcDebt_dailyDetails (bal : List VTokenSnapshot) (token : String) :
    (calculateDebtInterestFromBalances bal token).dailyDetails =
      if bal = [] ∨ bal.filter (fun b => b.symbol = token) = [] then []
      else (debtLoop none (periodBalancesV (bal.filter (fun b => b.symbol = token)))
        { dailyDetails := [], totalInterest := 0, currentDebt := 0
          totalBorrows := 0, totalRepays := 0 }).dailyDetails := by
  by_cases h1 : bal = []
  · simp [calculateDebtInterestFromBalances, h1, createEmptyResultDebt]
  · by_cases h2 : bal.filter (fun b => b.symbol = token) = []
    · simp [calculateDebtInterestFromBalances, h1, h2, createEmptyResultDebt]
    · simp [calculateDebtInterestFromBalances, h1, h2]

theorem supplyLoop_periodInterest_nonneg (l : List ATokenSnapshot) :
    ∀ (prev : Option ATokenSnapshot) (st : SupplyState),
      (∀ d ∈ st.dailyDetails, 0 ≤ d.periodInterest) →
      ∀ d ∈ (supplyLoop prev l st).dailyDetails, 0 ≤ d.periodInterest := by
  induction l with
  | nil => intro prev st h; simpa [supplyLoop] using h
  | cons cur rest ih =>
    intro prev st h
    simp only [supplyLoop]
    apply ih
    intro d hd
    rcases List.mem_append.mp hd with h1 | h2
    · exact h d h1
    · rcases List.mem_singleton.mp h2 with rfl
      exact supplyDayInterest_nonneg prev cur

theorem debtLoop_periodInterest_nonneg (l : List VTokenSnapshot) :
    ∀ (prev : Option VTokenSnapshot) (st : DebtState),
      (∀ d ∈ st.dailyDetails, 0 ≤ d.periodInterest) →
      ∀ d ∈ (debtLoop prev l st).dailyDetails, 0 ≤ d.periodInterest := by
  induction l with
  | nil => intro prev st h; simpa [debtLoop] using h
  | cons cur rest ih =>
    intro prev st h
    simp only [debtLoop]
    apply ih
    intro d hd
    rcases List.mem_append.mp hd with h1 | h2
    · exact h d h1
    · rcases List.mem_singleton.mp h2 with rfl
      exact debtDayInterest_nonneg prev cur

theorem supplyLoop_totalInterest_mono (l : List ATokenSnapshot) :
    ∀ (prev : Option ATokenSnapshot) (st : SupplyState),
      st.dailyDetails.Pairwise (fun d e => d.totalInterest ≤ e.totalInterest) →
      (∀ d ∈ st.dailyDetails, d.totalInterest ≤ st.totalInterest) →
      (supplyLoop prev l st).dailyDetails.Pairwise (fun d e => d.totalInterest ≤ e.totalInterest) := by
  induction l with
  | nil => intro prev st h _; simpa [supplyLoop] using h
  | cons cur rest ih =>
    intro prev st h hb
    have hnn := supplyDayInterest_nonneg prev cur
    simp only [supplyLoop]
    apply ih
    · apply List.pairwise_append.mpr
      refine ⟨h, List.pairwise_singleton _ _, ?_⟩
      intro d hd e he
      rcases List.mem_singleton.mp he with rfl
      show d.totalInterest ≤ st.totalInterest + supplyDayInterest prev cur
      have := hb d hd
      omega
    · intro d hd
      rcases List.mem_append.mp hd with h1 | h2
      · have := hb d h1
        show d.totalInterest ≤ st.totalInterest + supplyDayInterest prev cur
        omega
      · rcases List.mem_singleton.mp h2 with rfl
        show st.totalInterest + supplyDayInterest prev cur ≤ st.totalInterest + supplyDayInterest prev cur
        omega

theorem debtLoop_totalInterest_mono (l : List VTokenSnapshot) :
    ∀ (prev : Option VTokenSnapshot) (st : DebtState),
      st.dailyDetails.Pairwise (fun d e => d.totalInterest ≤ e.totalInterest) →
      (∀ d ∈ st.dailyDetails, d.totalInterest ≤ st.totalInterest) →
      (debtLoop prev l st).dailyDetails.Pairwise (fun d e => d.totalInterest ≤ e.totalInterest) := by
  induction l with
  | nil => intro prev st h _; simpa [debtLoop] using h
  | cons cur rest ih =>
    intro prev st h hb
    have hnn := debtDayInterest_nonneg prev cur
    simp only [debtLoop]
    apply ih
    · apply List.pairwise_append.mpr
      refine ⟨h, List.pairwise_singleton _ _, ?_⟩
      intro d hd e he
      rcases List.mem_singleton.mp he with rfl
      show d.totalInterest ≤ st.totalInterest + debtDayInterest prev cur
      have := hb d hd
      omega
    · intro d hd
      rcases List.mem_append.mp hd with h1 | h2
      · have := hb d h1
        show d.totalInterest ≤ st.totalInterest + debtDayInterest prev cur
        omega
      · rcases List.mem_singleton.mp h2 with rfl
        show st.totalInterest + debtDayInterest prev cur ≤ st.totalInterest + debtDayInterest prev cur
        omega

/-- C7: every emitted periodInterest is non-negative and totalInterest is
non-decreasing along the series, for both engines and for all inputs (the
non-decreasing-index hypothesis of the claim is not even needed); and when
the index decreases between consecutive snapshots (with a non-negative
previous scaled balance), the period interest of that step is clamped to
zero rather than emitted as a negative value. -/
theorem claim_C7 :
    (∀ (bal : List ATokenSnapshot) (token : String),
      ∀ d ∈ (calculateSupplyInterestFromBalances bal token).dailyDetails, 0 ≤ d.periodInterest)
    ∧ (∀ (bal : List ATokenSnapshot) (token : String),
      (calculateSupplyInterestFromBalances bal token).dailyDetails.Pairwise
        (fun d e => d.totalInterest ≤ e.totalInterest))
    ∧ (∀ (bal : List VTokenSnapshot) (token : String),
      ∀ d ∈ (calculateDebtInterestFromBalances bal token).dailyDetails, 0 ≤ d.periodInterest)
    ∧ (∀ (bal : List VTokenSnapshot) (token : String),
      (calculateDebtInterestFromBalances bal token).dailyDetails.Pairwise
        (fun d e => d.totalInterest ≤ e.totalInterest))
    ∧ (∀ (p cur : ATokenSnapshot), cur.index < p.index → 0 ≤ p.scaledATokenBalance →
        supplyDayInterest (some p) cur = 0)
    ∧ (∀ (p cur : VTokenSnapshot), cur.index < p.index → 0 ≤ p.scaledVariableDebt →
        debtDayInterest (some p) cur = 0) := by
  refine ⟨?_, ?_, ?_, ?_, ?_, ?_⟩
  · intro bal token
    rw [calcSupply_dailyDetails]
    split
    · simp
    · exact supplyLoop_periodInterest_nonneg _ none _ (by simp)
  · intro bal token
    rw [calcSupply_dailyDetails]
    split
    · simp
    · exact supplyLoop_totalInterest_mono _ none _ (by simp) (by simp)
  · intro bal token
    rw [calcDebt_dailyDetails]
    split
    · simp
    · exact debtLoop_periodInterest_nonneg _ none _ (by simp)
  · intro bal token
    rw [calcDebt_dailyDetails]
    split
    · simp
    · exact debtLoop_totalInterest_mono _ none _ (by simp) (by simp)
  · intro p cur hlt hnn
    simp only [supplyDayInterest]
    have hprod : p.scaledATokenBalance * (cur.index - p.index) ≤ 0 :=
      mul_nonpos_of_nonneg_of_nonpos hnn (by omega)
    have := tdiv_nonpos_of_nonpos_of_nonneg hprod (show (0 : Int) ≤ RAY by decide)
    rw [if_neg (by omega)]
  · intro p cur hlt hnn
    simp only [debtDayInterest]
    have hprod : p.scaledVariableDebt * (cur.index - p.index) ≤ 0 :=
      mul_nonpos_of_nonneg_of_nonpos hnn (by omega)
    have := tdiv_nonpos_of_nonpos_of_nonneg hprod (show (0 : Int) ≤ RAY by decide)
    rw [if_neg (by omega)]

theorem claim_C7_witness :
    supplyDayInterest (some ⟨1704067200, "USDC", 1000, 1000, 10 ^ 27⟩)
      ⟨1704153600, "USDC", 900, 1000, 9 * 10 ^ 26⟩ = 0 :=
  claim_C7.2.2.2.2.1 ⟨1704067200, "USDC", 1000, 1000, 10 ^ 27⟩
    ⟨1704153600, "USDC", 900, 1000, 9 * 10 ^ 26⟩ (by decide) (by decide)

/-- C6 counterexample: two snapshots sharing one timestamp (and day) but with
different balances.  The stable sort keeps them in input order and the
day-deduplication keeps the later one, so swapping the input order changes
which row survives: the two permuted inputs give different series. -/
theorem claim_C6_counterexample :
    calculateSupplyInterestFromBalances
        [⟨1704067200, "USDC", 1000, 1000, 10 ^ 27⟩,
         ⟨1704067200, "USDC", 2000, 2000, 10 ^ 27⟩] "USDC"
      ≠ calculateSupplyInterestFromBalances
        [⟨1704067200, "USDC", 2000, 2000, 10 ^ 27⟩,
         ⟨1704067200, "USDC", 1000, 1000, 10 ^ 27⟩] "USDC"
    ∧ List.Perm
        [(⟨1704067200, "USDC", 1000, 1000, 10 ^ 27⟩ : ATokenSnapshot),
         ⟨1704067200, "USDC", 2000, 2000, 10 ^ 27⟩]
        [⟨1704067200, "USDC", 2000, 2000, 10 ^ 27⟩,
         ⟨1704067200, "USDC", 1000, 1000, 10 ^ 27⟩] := by
  constructor
  · decide
  · exact List.Perm.swap _ _ _

theorem insertionSortA_eq_of_perm (l₁ l₂ : List ATokenSnapshot)
    (hperm : l₁.Perm l₂)
    (hts : l₁.Pairwise (fun a b => a.timestamp ≠ b.timestamp)) :
    l₁.insertionSort aTs = l₂.insertionSort aTs := by
  have hp : (l₁.insertionSort aTs).Perm (l₂.insertionSort aTs) :=
    (List.perm_insertionSort aTs l₁).trans (hperm.trans (List.perm_insertionSort aTs l₂).symm)
  have hne₁ : (l₁.insertionSort aTs).Pairwise (fun a b => a.timestamp ≠ b.timestamp) :=
    ((List.perm_insertionSort aTs l₁).pairwise_iff (fun h => Ne.symm h)).mpr hts
  have hne₂ : (l₂.insertionSort aTs).Pairwise (fun a b => a.timestamp ≠ b.timestamp) :=
    (hp.pairwise_iff (fun h => Ne.symm h)).mp hne₁
  have hlt₁ : (l₁.insertionSort aTs).Pairwise (fun a b => a.timestamp < b.timestamp) :=
    ((List.sorted_insertionSort aTs l₁).and hne₁).imp (fun h => Nat.lt_of_le_of_ne h.1 h.2)
  have hlt₂ : (l₂.insertionSort aTs).Pairwise (fun a b => a.timestamp < b.timestamp) :=
    ((List.sorted_insertionSort aTs l₂).and hne₂).imp (fun h => Nat.lt_of_le_of_ne h.1 h.2)
  haveI : IsAntisymm ATokenSnapshot (fun a b => a.timestamp < b.timestamp) :=
    ⟨fun a b h1 h2 => absurd (Nat.lt_trans h1 h2) (Nat.lt_irrefl _)⟩
  exact List.eq_of_perm_of_sorted hp hlt₁ hlt₂

/-- C6 (amended): order invariance holds for inputs whose snapshots carry
pairwise distinct timestamps: permuting such an input does not change the
result of the reducer and accrual engine.  (With duplicated timestamps the
stable sort preserves input order and the day-deduplication keeps the last
row, so permutations can change the output, as the counterexample shows.) -/
theorem claim_C6_amended (l₁ l₂ : List ATokenSnapshot) (token : String)
    (hperm : l₁.Perm l₂)
    (hts : l₁.Pairwise (fun a b => a.timestamp ≠ b.timestamp)) :
    calculateSupplyInterestFromBalances l₁ token = calculateSupplyInterestFromBalances l₂ token := by
  by_cases h1 : l₁ = []
  · have h2 : l₂ = [] := by
      subst h1
      exact hperm.symm.eq_nil
    rw [h1, h2]
  · have h2 : l₂ ≠ [] := fun h => h1 (by
      rw [h] at hperm
      exact hperm.eq_nil)
    have hpf : (l₁.filter (fun b => b.symbol = token)).Perm (l₂.filter (fun b => b.symbol = token)) :=
      hperm.filter _
    have htsf : (l₁.filter (fun b => b.symbol = token)).Pairwise
        (fun a b => a.timestamp ≠ b.timestamp) :=
      hts.sublist (List.filter_sublist _)
    have hsorteq := insertionSortA_eq_of_perm _ _ hpf htsf
    by_cases h3 : l₁.filter (fun b => b.symbol = token) = []
    · have h4 : l₂.filter (fun b => b.symbol = token) = [] := by
        rw [h3] at hpf
        exact hpf.symm.eq_nil
      simp [calculateSupplyInterestFromBalances, h1, h2, h3, h4]
    · have h4 : l₂.filter (fun b => b.symbol = token) ≠ [] := fun h => h3 (by
        rw [h] at hpf
        exact hpf.eq_nil)
      have hpb : periodBalancesA (l₁.filter (fun b => b.symbol = token))
          = periodBalancesA (l₂.filter (fun b => b.symbol = token)) := by
        simp only [periodBalancesA]
        rw [hsorteq]
      simp [calculateSupplyInterestFromBalances, h1, h2, h3, h4, hpb]

theorem claim_C6_witness :
    calculateSupplyInterestFromBalances
        [⟨1704067200, "USDC", 1000, 1000, 10 ^ 27⟩,
         ⟨1704153600, "USDC", 1500, 1500, 10 ^ 27⟩] "USDC"
      = calculateSupplyInterestFromBalances
        [⟨1704153600, "USDC", 1500, 1500, 10 ^ 27⟩,
         ⟨1704067200, "USDC", 1000, 1000, 10 ^ 27⟩] "USDC" :=
  claim_C6_amended _ _ "USDC" (List.Perm.swap _ _ _) (by decide)

theorem mapSet_mem {α : Type} {m : List (Nat × α)} {k₀ : Nat} {v₀ : α} {kv : Nat × α}
    (h : kv ∈ mapSet m k₀ v₀) : kv = (k₀, v₀) ∨ kv ∈ m := by
  induction m with
  | nil => simpa [mapSet] using h
  | cons p rest ih =>
    obtain ⟨k', v'⟩ := p
    simp only [mapSet] at h
    by_cases hk : k' = k₀
    · rw [if_pos hk] at h
      rcases List.mem_cons.mp h with h1 | h2
      · exact Or.inl h1
      · exact Or.inr (List.mem_cons_of_mem _ h2)
    · rw [if_neg hk] at h
      rcases List.mem_cons.mp h with h1 | h2
      · exact Or.inr (h1 ▸ List.mem_cons_self _ _)
      · rcases ih h2 with h3 | h4
        · exact Or.inl h3
        · exact Or.inr (List.mem_cons_of_mem _ h4)

theorem mapSet_keys_sub {α : Type} {m : List (Nat × α)} {k₀ : Nat} {v₀ : α} {x : Nat}
    (h : x ∈ (mapSet m k₀ v₀).map Prod.fst) : x ∈ m.map Prod.fst ∨ x = k₀ := by
  obtain ⟨kv, hkv, hx⟩ := List.mem_map.mp h
  rcases mapSet_mem hkv with h1 | h2
  · right
    rw [h1] at hx
    exact hx.symm
  · left
    exact hx ▸ List.mem_map_of_mem Prod.fst h2

theorem mapSet_keys_nodup {α : Type} {m : List (Nat × α)}
    (hm : (m.map Prod.fst).Nodup) (k₀ : Nat) (v₀ : α) :
    ((mapSet m k₀ v₀).map Prod.fst).Nodup := by
  induction m with
  | nil => simp [mapSet]
  | cons p rest ih =>
    obtain ⟨k', v'⟩ := p
    simp only [List.map_cons, List.nodup_cons] at hm
    obtain ⟨hk', hrest⟩ := hm
    simp only [mapSet]
    by_cases hk : k' = k₀
    · rw [if_pos hk]
      simp only [List.map_cons, List.nodup_cons]
      exact ⟨hk ▸ hk', hrest⟩
    · rw [if_neg hk]
      simp only [List.map_cons, List.nodup_cons]
      refine ⟨?_, ih hrest⟩
      intro hx
      rcases mapSet_keys_sub hx with h1 | h2
      · exact hk' h1
      · exact hk h2

theorem mapSet_mem_of_nodup {α : Type} {m : List (Nat × α)}
    (hm : (m.map Prod.fst).Nodup) {k₀ : Nat} {v₀ : α} {kv : Nat × α}
    (h : kv ∈ mapSet m k₀ v₀) : kv = (k₀, v₀) ∨ (kv ∈ m ∧ kv.1 ≠ k₀) := by
  induction m with
  | nil => exact Or.inl (by simpa [mapSet] using h)
  | cons p rest ih =>
    obtain ⟨k', v'⟩ := p
    simp only [List.map_cons, List.nodup_cons] at hm
    obtain ⟨hk', hrest⟩ := hm
    simp only [mapSet] at h
    by_cases hk : k' = k₀
    · rw [if_pos hk] at h
      rcases List.mem_cons.mp h with h1 | h2
      · exact Or.inl h1
      · refine Or.inr ⟨List.mem_cons_of_mem _ h2, fun he => hk' ?_⟩
        rw [hk, ← he]
        exact List.mem_map_of_mem Prod.fst h2
    · rw [if_neg hk] at h
      rcases List.mem_cons.mp h with h1 | h2
      · refine Or.inr ⟨h1 ▸ List.mem_cons_self _ _, ?_⟩
        rw [h1]
        exact hk
      · rcases ih hrest h2 with h3 | h4
        · exact Or.inl h3
        · exact Or.inr ⟨List.mem_cons_of_mem _ h4.1, h4.2⟩

theorem foldl_mapSet_keys_nodup {α : Type} (kf : α → Nat) (l : List α) :
    ∀ (m : List (Nat × α)), (m.map Prod.fst).Nodup →
      ((l.foldl (fun m b => mapSet m (kf b) b) m).map Prod.fst).Nodup := by
  induction l with
  | nil => intro m hm; simpa using hm
  | cons b rest ih => intro m hm; exact ih _ (mapSet_keys_nodup hm _ _)

theorem foldl_mapSet_char {α : Type} (kf : α → Nat) (tsf : α → Nat) (l : List α) :
    ∀ (m : List (Nat × α)),
      (m.map Prod.fst).Nodup →
      (∀ kv ∈ m, kv.1 = kf kv.2) →
      l.Pairwise (fun a b => tsf a ≤ tsf b) →
      ∀ kv ∈ l.foldl (fun m b => mapSet m (kf b) b) m,
        kv.1 = kf kv.2 ∧
        ((kv.2 ∈ l ∧ ∀ b ∈ l, kf b = kv.1 → tsf b ≤ tsf kv.2) ∨
         (kv ∈ m ∧ ∀ b ∈ l, kf b ≠ kv.1)) := by
  induction l with
  | nil =>
    intro m _ hkey _ kv hm
    exact ⟨hkey kv hm, Or.inr ⟨hm, by simp⟩⟩
  | cons x rest ih =>
    intro m hnd hkey hpair kv hkv
    rw [List.foldl_cons] at hkv
    have hnd' := mapSet_keys_nodup hnd (kf x) x
    have hkey' : ∀ kv ∈ mapSet m (kf x) x, kv.1 = kf kv.2 := by
      intro kv h
      rcases mapSet_mem h with h1 | h2
      · rw [h1]
      · exact hkey kv h2
    obtain ⟨hx, hrest⟩ := List.pairwise_cons.mp hpair
    obtain ⟨hk, hcase⟩ := ih (mapSet m (kf x) x) hnd' hkey' hrest kv hkv
    refine ⟨hk, ?_⟩
    rcases hcase with ⟨hmem, hmax⟩ | ⟨hmem, hnone⟩
    · left
      refine ⟨List.mem_cons_of_mem _ hmem, ?_⟩
      intro b hb hkfb
      rcases List.mem_cons.mp hb with rfl | hb'
      · exact hx kv.2 hmem
      · exact hmax b hb' hkfb
    · rcases mapSet_mem_of_nodup hnd hmem with h1 | ⟨h2, h3⟩
      · subst h1
        left
        refine ⟨List.mem_cons_self _ _, ?_⟩
        intro b hb hkfb
        rcases List.mem_cons.mp hb with rfl | hb'
        · exact Nat.le_refl _
        · exact absurd hkfb (hnone b hb')
      · right
        refine ⟨h2, ?_⟩
        intro b hb
        rcases List.mem_cons.mp hb with rfl | hb'
        · exact fun he => h3 he.symm
        · exact hnone b hb'

theorem balancesByDayA_keys_nodup (l : List ATokenSnapshot) :
    ((balancesByDayA l).map Prod.fst).Nodup := by
  simp only [balancesByDayA]
  exact foldl_mapSet_keys_nodup _ l [] (by simp)

theorem balancesByDayA_char (l : List ATokenSnapshot)
    (hpair : l.Pairwise (fun a b => a.timestamp ≤ b.timestamp)) :
    ∀ kv ∈ balancesByDayA l,
      kv.1 = formatDateYYYYMMDD kv.2.timestamp ∧ kv.2 ∈ l ∧
      ∀ b ∈ l, formatDateYYYYMMDD b.timestamp = kv.1 → b.timestamp ≤ kv.2.timestamp := by
  intro kv h
  simp only [balancesByDayA] at h
  have key := foldl_mapSet_char (fun b : ATokenSnapshot => formatDateYYYYMMDD b.timestamp)
    (fun b : ATokenSnapshot => b.timestamp) l ([] : List (Nat × ATokenSnapshot))
  have key2 := key (by simp) (by simp) hpair kv h
  obtain ⟨h1, h2⟩ := key2
  rcases h2 with ⟨hm, hmax⟩ | ⟨hm, _⟩
  · exact ⟨h1, hm, hmax⟩
  · simp at hm

theorem supplyLoop_map_shape (l : List ATokenSnapshot) :
    ∀ (prev : Option ATokenSnapshot) (st : SupplyState),
      ((supplyLoop prev l st).dailyDetails).map (fun d => (d.date, d.timestamp)) =
        st.dailyDetails.map (fun d => (d.date, d.timestamp)) ++
          l.map (fun b => (formatDateYYYYMMDD b.timestamp, b.timestamp)) := by
  induction l with
  | nil => intro prev st; simp [supplyLoop]
  | cons cur rest ih =>
    intro prev st
    simp only [supplyLoop]
    rw [ih]
    simp [supplyDailyDetail]

theorem periodBalancesA_day_nodup (f : List ATokenSnapshot) :
    (periodBalancesA f).Pairwise
      (fun a b => formatDateYYYYMMDD a.timestamp ≠ formatDateYYYYMMDD b.timestamp) := by
  have hnd := balancesByDayA_keys_nodup (f.insertionSort aTs)
  have hkey : ∀ kv ∈ balancesByDayA (f.insertionSort aTs),
      kv.1 = formatDateYYYYMMDD kv.2.timestamp := by
    intro kv h
    exact (balancesByDayA_char _ (List.sorted_insertionSort aTs f) kv h).1
  have hmapeq : (balancesByDayA (f.insertionSort aTs)).map Prod.fst
      = ((balancesByDayA (f.insertionSort aTs)).map Prod.snd).map
          (fun b => formatDateYYYYMMDD b.timestamp) := by
    rw [List.map_map]
    exact List.map_congr_left hkey
  rw [hmapeq] at hnd
  have hpw : ((balancesByDayA (f.insertionSort aTs)).map Prod.snd).Pairwise
      (fun a b => formatDateYYYYMMDD a.timestamp ≠ formatDateYYYYMMDD b.timestamp) :=
    List.pairwise_map.mp hnd
  exact ((List.perm_insertionSort aTs _).pairwise_iff (fun h => Ne.symm h)).mpr hpw

/-- C5: the daily snapshot reducer emits at most one point per calendar day
(pairwise distinct dates), sorted ascending by timestamp; each emitted point
comes from an input snapshot whose timestamp is maximal among the same-day
input snapshots; an empty input produces an empty series; and a single
matching snapshot produces exactly one DailyPoint with periodInterest 0. -/
theorem claim_C5 (bal : List ATokenSnapshot) (token : String) (b : ATokenSnapshot) :
    ((calculateSupplyInterestFromBalances bal token).dailyDetails.Pairwise
      (fun d e => d.date ≠ e.date))
    ∧ ((calculateSupplyInterestFromBalances bal token).dailyDetails.Pairwise
      (fun d e => d.timestamp ≤ e.timestamp))
    ∧ (∀ d ∈ (calculateSupplyInterestFromBalances bal token).dailyDetails,
        ∃ s ∈ bal.filter (fun x => x.symbol = token),
          d.timestamp = s.timestamp ∧ d.date = formatDateYYYYMMDD s.timestamp ∧
          ∀ s' ∈ bal.filter (fun x => x.symbol = token),
            formatDateYYYYMMDD s'.timestamp = d.date → s'.timestamp ≤ s.timestamp)
    ∧ (calculateSupplyInterestFromBalances [] token).dailyDetails = []
    ∧ (b.symbol = token →
        ((calculateSupplyInterestFromBalances [b] token).dailyDetails.map
          (fun d => d.periodInterest)) = [0]) := by
  have hshape : ∀ (f : List ATokenSnapshot),
      ((supplyLoop none (periodBalancesA f)
          { dailyDetails := [], totalInterest := 0, currentSupply := 0
            totalSupplies := 0, totalWithdraws := 0 }).dailyDetails).map
        (fun d => (d.date, d.timestamp)) =
        (periodBalancesA f).map (fun b => (formatDateYYYYMMDD b.timestamp, b.timestamp)) := by
    intro f
    rw [supplyLoop_map_shape]
    simp
  refine ⟨?_, ?_, ?_, ?_, ?_⟩
  · rw [calcSupply_dailyDetails]
    split
    · simp
    · rw [← List.pairwise_map (f := fun d : DailyDetail => (d.date, d.timestamp))
        (R := fun p q : Nat × Nat => p.1 ≠ q.1)]
      rw [hshape]
      rw [List.pairwise_map]
      exact periodBalancesA_day_nodup _
  · rw [calcSupply_dailyDetails]
    split
    · simp
    · rw [← List.pairwise_map (f := fun d : DailyDetail => (d.date, d.timestamp))
        (R := fun p q : Nat × Nat => p.2 ≤ q.2)]
      rw [hshape]
      rw [List.pairwise_map]
      exact List.sorted_insertionSort aTs _
  · intro d hd
    rw [calcSupply_dailyDetails] at hd
    by_cases hc : bal = [] ∨ bal.filter (fun x => x.symbol = token) = []
    · rw [if_pos hc] at hd
      simp at hd
    · rw [if_neg hc] at hd
      have hmem : (d.date, d.timestamp) ∈
          (periodBalancesA (bal.filter (fun x => x.symbol = token))).map
            (fun b => (formatDateYYYYMMDD b.timestamp, b.timestamp)) := by
        rw [← hshape]
        exact List.mem_map_of_mem _ hd
      obtain ⟨s, hs, hpair⟩ := List.mem_map.mp hmem
      have hdd : d.date = formatDateYYYYMMDD s.timestamp ∧ d.timestamp = s.timestamp := by
        have h1 := congrArg Prod.fst hpair
        have h2 := congrArg Prod.snd hpair
        exact ⟨h1.symm, h2.symm⟩
      simp only [periodBalancesA, List.mem_insertionSort] at hs
      obtain ⟨kv, hkv, hkveq⟩ := List.mem_map.mp hs
      have hchar := balancesByDayA_char _
        (List.sorted_insertionSort aTs (bal.filter (fun x => x.symbol = token))) kv hkv
      refine ⟨s, ?_, hdd.2, hdd.1, ?_⟩
      · rw [← List.mem_insertionSort (r := aTs)]
        rw [hkveq] at hchar
        exact hchar.2.1
      · intro s' hs' hday
        rw [hdd.1] at hday
        rw [hkveq] at hchar
        exact hchar.2.2 s' (by rw [List.mem_insertionSort]; exact hs')
          (by rw [hchar.1]; exact hday)
  · rfl
  · intro hb
    have hfil : [b].filter (fun x => x.symbol = token) = [b] := by
      simp [hb]
    rw [calcSupply_dailyDetails]
    rw [if_neg (by simp [hfil])]
    rw [hfil]
    simp [periodBalancesA, balancesByDayA, mapSet, supplyLoop, supplyDailyDetail,
      supplyDayInterest]

theorem claim_C5_witness :
    ((⟨1704067200, "USDC", 1000, 1000, 10 ^ 27⟩ : ATokenSnapshot).symbol = "USDC") ∧
    ((calculateSupplyInterestFromBalances
        [⟨1704067200, "USDC", 1000, 1000, 10 ^ 27⟩] "USDC").dailyDetails.map
      (fun d => d.periodInterest)) = [0] :=
  ⟨by decide, (claim_C5 [⟨1704067200, "USDC", 1000, 1000, 10 ^ 27⟩] "USDC"
    ⟨1704067200, "USDC", 1000, 1000, 10 ^ 27⟩).2.2.2.2 (by decide)⟩

theorem getLast?_cons_or {α : Type} (x : α) (l : List α) :
    (x :: l).getLast? = (l.getLast?).or (some x) := by
  cases l with
  | nil => rfl
  | cons a as =>
    rw [List.getLast?_cons_cons]
    obtain ⟨z, hz⟩ := Option.isSome_iff_exists.mp
      (List.getLast?_isSome.mpr (List.cons_ne_nil a as))
    rw [hz]
    rfl

theorem findLoop_exact (t : Nat) (L : List DailyDetail) :
    ∀ (acc : Option DailyDetail),
      L.Pairwise dTs →
      (∀ p ∈ L, ∀ q ∈ L, p.timestamp ≤ q.timestamp →
        timestampToDate p.timestamp ≤ timestampToDate q.timestamp) →
      (∀ p ∈ L, t ≤ p.timestamp → timestampToDate t ≤ timestampToDate p.timestamp) →
      (findLoop t L acc).exact
        = L.find? (fun p => timestampToDate p.timestamp = timestampToDate t) := by
  induction L with
  | nil => intro acc _ _ _; rfl
  | cons point rest ih =>
    intro acc hpw hdm hdt
    obtain ⟨hhead, hrest⟩ := List.pairwise_cons.mp hpw
    simp only [findLoop]
    by_cases hday : timestampToDate point.timestamp = timestampToDate t
    · rw [if_pos hday, List.find?_cons_of_pos _ (by simpa using hday)]
    · rw [if_neg hday, List.find?_cons_of_neg _ (by simpa using hday)]
      by_cases hlt : point.timestamp < t
      · rw [if_pos hlt]
        exact ih (some point) hrest
          (fun p hp q hq hle => hdm p (List.mem_cons_of_mem _ hp) q (List.mem_cons_of_mem _ hq) hle)
          (fun p hp hle => hdt p (List.mem_cons_of_mem _ hp) hle)
      · rw [if_neg hlt]
        by_cases hgt : point.timestamp > t
        · rw [if_pos hgt]
          have hfind : rest.find? (fun p => timestampToDate p.timestamp = timestampToDate t) = none := by
            rw [List.find?_eq_none]
            intro q hq
            simp only [decide_eq_true_eq]
            intro hqd
            have h1 : timestampToDate t ≤ timestampToDate point.timestamp :=
              hdt point (List.mem_cons_self _ _) (Nat.le_of_lt hgt)
            have h2 : timestampToDate point.timestamp ≤ timestampToDate q.timestamp :=
              hdm point (List.mem_cons_self _ _) q (List.mem_cons_of_mem _ hq) (hhead q hq)
            apply hday
            omega
          rw [hfind]
        · exfalso
          apply hday
          have : point.timestamp = t := by omega
          rw [this]

theorem findLoop_noexact (t : Nat) (L : List DailyDetail) :
    ∀ (acc : Option DailyDetail),
      L.Pairwise dTs →
      (∀ p ∈ L, timestampToDate p.timestamp ≠ timestampToDate t) →
      findLoop t L acc =
        { before := ((L.filter (fun p => p.timestamp < t)).getLast?).or acc
          after := (L.filter (fun p => t < p.timestamp)).head?
          exact := none } := by
  induction L with
  | nil => intro acc _ _; simp [findLoop]
  | cons point rest ih =>
    intro acc hpw hnday
    obtain ⟨hhead, hrest⟩ := List.pairwise_cons.mp hpw
    have hday := hnday point (List.mem_cons_self _ _)
    simp only [findLoop]
    rw [if_neg hday]
    by_cases hlt : point.timestamp < t
    · rw [if_pos hlt]
      rw [ih (some point) hrest (fun p hp => hnday p (List.mem_cons_of_mem _ hp))]
      rw [List.filter_cons_of_pos (by simpa using hlt)]
      rw [List.filter_cons_of_neg (by simp; omega)]
      rw [getLast?_cons_or, Option.or_assoc, Option.or_some]
    · rw [if_neg hlt]
      by_cases hgt : point.timestamp > t
      · rw [if_pos hgt]
        have hrf : rest.filter (fun p => p.timestamp < t) = [] := by
          rw [List.filter_eq_nil_iff]
          intro q hq
          have := hhead q hq
          simp only [dTs] at this
          simp only [decide_eq_true_eq]
          omega
        rw [List.filter_cons_of_neg (by simp; omega), hrf]
        rw [List.filter_cons_of_pos (by simpa using hgt)]
        rfl
      · exfalso
        apply hday
        have : point.timestamp = t := by omega
        rw [this]

theorem sorted_dayCoherent (l : List DailyDetail) (t : Nat) (hc : DayCoherent l t) :
    (∀ p ∈ l.insertionSort dTs, ∀ q ∈ l.insertionSort dTs, p.timestamp ≤ q.timestamp →
      timestampToDate p.timestamp ≤ timestampToDate q.timestamp)
    ∧ (∀ p ∈ l.insertionSort dTs, t ≤ p.timestamp →
      timestampToDate t ≤ timestampToDate p.timestamp) := by
  constructor
  · intro p hp q hq hle
    exact hc.1 p ((List.mem_insertionSort dTs).mp hp) q ((List.mem_insertionSort dTs).mp hq) hle
  · intro p hp hle
    exact (hc.2 p ((List.mem_insertionSort dTs).mp hp)).2 hle

theorem getPointAtDate_eq_spec (l : List DailyDetail) (d : Nat) (k : String)
    (hc : DayCoherent l (dateToTimestamp d)) :
    getPointAtDate l d k = getPointAtDateSpec l d k := by
  by_cases hne : l = []
  · simp [getPointAtDate, getPointAtDateSpec, hne]
  · obtain ⟨hdm, hdt⟩ := sorted_dayCoherent l (dateToTimestamp d) hc
    have hsorted : (l.insertionSort dTs).Pairwise dTs := List.sorted_insertionSort dTs l
    simp only [getPointAtDate, getPointAtDateSpec, findSurroundingPoints, hne, if_neg,
      ite_false, if_false]
    by_cases hex : ∃ p ∈ l.insertionSort dTs,
        timestampToDate p.timestamp = timestampToDate (dateToTimestamp d)
    · obtain ⟨p₀, hp₀, hp₀d⟩ := hex
      have hfsome : ((l.insertionSort dTs).find?
          (fun p => timestampToDate p.timestamp = timestampToDate (dateToTimestamp d))).isSome := by
        rw [List.find?_isSome]
        exact ⟨p₀, hp₀, by simpa using hp₀d⟩
      obtain ⟨p, hp⟩ := Option.isSome_iff_exists.mp hfsome
      rw [findLoop_exact (dateToTimestamp d) (l.insertionSort dTs) none hsorted hdm hdt, hp]
    · have hnday : ∀ p ∈ l.insertionSort dTs,
          timestampToDate p.timestamp ≠ timestampToDate (dateToTimestamp d) :=
        fun p hp h => hex ⟨p, hp, h⟩
      have hnone : (l.insertionSort dTs).find?
          (fun p => timestampToDate p.timestamp = timestampToDate (dateToTimestamp d)) = none := by
        rw [List.find?_eq_none]
        intro p hp
        simpa using hnday p hp
      rw [findLoop_noexact (dateToTimestamp d) (l.insertionSort dTs) none hsorted hnday, hnone]
      simp only [Option.or_none]

theorem getPointAtDateSpec_isSome (l : List DailyDetail) (d : Nat) (k : String)
    (hne : l ≠ []) : ∃ pt, getPointAtDateSpec l d k = some pt := by
  have hsne : l.insertionSort dTs ≠ [] := by
    intro h
    apply hne
    have := List.perm_insertionSort dTs l
    rw [h] at this
    exact this.symm.eq_nil
  obtain ⟨x, hx⟩ := List.exists_mem_of_ne_nil _ hsne
  simp only [getPointAtDateSpec, hne, ite_false, if_false]
  cases hf : (l.insertionSort dTs).find?
      (fun p => timestampToDate p.timestamp = timestampToDate (dateToTimestamp d)) with
  | some p => exact ⟨_, rfl⟩
  | none =>
    cases hb : ((l.insertionSort dTs).filter
        (fun p => p.timestamp < dateToTimestamp d)).getLast? with
    | some b =>
      cases ha : ((l.insertionSort dTs).filter
          (fun p => dateToTimestamp d < p.timestamp)).head? with
      | some a => exact ⟨_, rfl⟩
      | none => exact ⟨_, rfl⟩
    | none =>
      cases ha : ((l.insertionSort dTs).filter
          (fun p => dateToTimestamp d < p.timestamp)).head? with
      | some a => exact ⟨_, rfl⟩
      | none =>
        exfalso
        rw [List.getLast?_eq_none_iff, List.filter_eq_nil_iff] at hb
        rw [List.head?_eq_none_iff, List.filter_eq_nil_iff] at ha
        have h1 := hb x hx
        have h2 := ha x hx
        simp only [decide_eq_true_eq] at h1 h2
        have hxt : x.timestamp = dateToTimestamp d := by omega
        have := List.find?_eq_none.mp hf x hx
        simp only [decide_eq_true_eq] at this
        apply this
        rw [hxt]

/-- C8: the period-interest query.  getPointAtDate agrees with the
specification-side case analysis (exact day match / zero before the first
point / clamp after the last point / linear interpolation in between);
calculatePeriodInterest returns max(0, totalInterest(end) -
totalInterest(start)) of those boundary points together with the points
themselves; and a query with start = end equal to a date present in the
series returns interest 0 with a boundary point carrying that day's recorded
balance.  Day coherence of the series (days ordered like timestamps, a
property every real series has since the calendar conversion is monotone) is
taken as an explicit decidable hypothesis. -/
theorem claim_C8 (series : List DailyDetail) (startDate endDate : Nat) (key : String)
    (hne : series ≠ [])
    (hc1 : DayCoherent series (dateToTimestamp startDate))
    (hc2 : DayCoherent series (dateToTimestamp endDate)) :
    getPointAtDate series startDate key = getPointAtDateSpec series startDate key
    ∧ getPointAtDate series endDate key = getPointAtDateSpec series endDate key
    ∧ (∃ ps pe, getPointAtDateSpec series startDate key = some ps
        ∧ getPointAtDateSpec series endDate key = some pe
        ∧ calculatePeriodInterest series startDate endDate key =
            { interest := max 0 (pe.totalInterest - ps.totalInterest)
              startPoint := some ps, endPoint := some pe })
    ∧ (startDate = endDate →
        (∃ p ∈ series, timestampToDate p.timestamp = timestampToDate (dateToTimestamp startDate)) →
        (calculatePeriodInterest series startDate endDate key).interest = 0
        ∧ ∃ p ∈ series,
            timestampToDate p.timestamp = timestampToDate (dateToTimestamp startDate)
            ∧ (calculatePeriodInterest series startDate endDate key).startPoint =
                some { timestamp := p.timestamp, balance := keyedBalance p key
                       totalInterest := (p.totalInterest : ℚ), isInterpolated := false }) := by
  have h1 := getPointAtDate_eq_spec series startDate key hc1
  have h2 := getPointAtDate_eq_spec series endDate key hc2
  obtain ⟨ps, hps⟩ := getPointAtDateSpec_isSome series startDate key hne
  obtain ⟨pe, hpe⟩ := getPointAtDateSpec_isSome series endDate key hne
  have hcalc : calculatePeriodInterest series startDate endDate key =
      { interest := max 0 (pe.totalInterest - ps.totalInterest)
        startPoint := some ps, endPoint := some pe } := by
    simp only [calculatePeriodInterest, hne, ite_false, if_false, h1, h2, hps, hpe]
  refine ⟨h1, h2, ⟨ps, pe, hps, hpe, hcalc⟩, ?_⟩
  intro heq hex
  subst heq
  have hpe_ps : ps = pe := by
    rw [hps] at hpe
    exact Option.some.inj hpe
  obtain ⟨p₀, hp₀m, hp₀d⟩ := hex
  have hfsome : ((series.insertionSort dTs).find?
      (fun p => timestampToDate p.timestamp = timestampToDate (dateToTimestamp startDate))).isSome := by
    rw [List.find?_isSome]
    exact ⟨p₀, (List.mem_insertionSort dTs).mpr hp₀m, by simpa using hp₀d⟩
  obtain ⟨p, hp⟩ := Option.isSome_iff_exists.mp hfsome
  have hpd : timestampToDate p.timestamp = timestampToDate (dateToTimestamp startDate) := by
    have := List.find?_some hp
    simpa using this
  have hpm : p ∈ series := (List.mem_insertionSort dTs).mp (List.mem_of_find?_eq_some hp)
  have hspec : getPointAtDateSpec series startDate key =
      some { timestamp := p.timestamp, balance := keyedBalance p key
             totalInterest := (p.totalInterest : ℚ), isInterpolated := false } := by
    simp only [getPointAtDateSpec, hne, ite_false, if_false, hp]
  have hps' : ps = { timestamp := p.timestamp, balance := keyedBalance p key
                     totalInterest := (p.totalInterest : ℚ), isInterpolated := false } := by
    rw [hspec] at hps
    exact (Option.some.inj hps).symm
  constructor
  · rw [hcalc]
    show max 0 (pe.totalInterest - ps.totalInterest) = 0
    rw [← hpe_ps]
    simp
  · refine ⟨p, hpm, hpd, ?_⟩
    rw [hcalc]
    show some ps = _
    rw [hps']

theorem claim_C8_witness :
    (calculatePeriodInterest
      [⟨20240101, 1704067200, none, some 1000, 0, 0, 0, "none", "real"⟩,
       ⟨20240105, 1704412800, none, some 1200, 7, 7, 0, "none", "real"⟩]
      20240105 20240105 "supply").interest = 0 :=
  ((claim_C8
      [⟨20240101, 1704067200, none, some 1000, 0, 0, 0, "none", "real"⟩,
       ⟨20240105, 1704412800, none, some 1200, 7, 7, 0, "none", "real"⟩]
      20240105 20240105 "supply" (by decide) (by decide) (by decide)).2.2.2
    rfl ⟨⟨20240105, 1704412800, none, some 1200, 7, 7, 0, "none", "real"⟩, by decide, by decide⟩).1

end GainOrLoss
